import Mathlib

/-!
Shallow embedding of the combat/progression logic of `src/app/page.tsx`
(the single-page 3D portfolio game).  Numbers: health, damage, levels and
experience are integers (`ℤ`); positions, timestamps and the per-frame clock
are rationals (`ℚ`).  A JavaScript comparison `Math.sqrt(dx^2 + dz^2) < r`
(with `r > 0`) is embedded as the equivalent square-free comparison
`dx^2 + dz^2 < r^2`.  One-shot `setTimeout` callbacks (invulnerability reset
after 1000 ms, attack-animation reset after 300 ms) are embedded as explicit
expiry timestamps carried in the state next to the boolean they clear.
-/

namespace Portfolio3D

/-- The four dragon attack kinds of `DragonAttack["type"]` (page.tsx:47). -/
inductive AttackType
  | fireball
  | breath
  | charge
  | aoe
deriving DecidableEq, Repr

/-- A 3-component position vector (the `[number, number, number]` tuples). -/
structure Vec3 where
  x : ℚ
  y : ℚ
  z : ℚ
deriving DecidableEq, Repr

/-- Squared planar (x/z) distance.  Every distance check in page.tsx uses
`Math.sqrt(Math.pow(ax - bx, 2) + Math.pow(az - bz, 2))`, i.e. only the x and
z coordinates. -/
def planarDistSq (p q : Vec3) : ℚ :=
  (p.x - q.x) ^ 2 + (p.z - q.z) ^ 2

/-- Embedding of `Math.sqrt(planar) < r` for a positive threshold `r`:
equivalent to `planar < r^2` since both sides are nonnegative. -/
def planarDistLt (p q : Vec3) (r : ℚ) : Bool :=
  decide (planarDistSq p q < r ^ 2)

/-- The inventory record of `GameState.inventory` (page.tsx:20-27). -/
structure Inventory where
  diamonds : ℤ
  emeralds : ℤ
  gold : ℤ
  iron : ℤ
  redstone : ℤ
  wood : ℤ
deriving DecidableEq, Repr

/-- The six resource keys of the inventory object. -/
inductive Resource
  | diamonds
  | emeralds
  | gold
  | iron
  | redstone
  | wood
deriving DecidableEq, Repr

/-- `inventory[key]` lookup. -/
def Inventory.get (inv : Inventory) : Resource → ℤ
  | .diamonds => inv.diamonds
  | .emeralds => inv.emeralds
  | .gold => inv.gold
  | .iron => inv.iron
  | .redstone => inv.redstone
  | .wood => inv.wood

/-- `inventory[key] = v` update. -/
def Inventory.set (inv : Inventory) : Resource → ℤ → Inventory
  | .diamonds, v => { inv with diamonds := v }
  | .emeralds, v => { inv with emeralds := v }
  | .gold, v => { inv with gold := v }
  | .iron, v => { inv with iron := v }
  | .redstone, v => { inv with redstone := v }
  | .wood, v => { inv with wood := v }

/-- The equipment record of `GameState.equipment` (page.tsx:28-32). -/
structure Equipment where
  weapon : String
  armor : String
  shield : String
deriving DecidableEq, Repr

/-- `String.includes` of JavaScript: `pat` occurs contiguously in `s`
(the empty pattern always occurs). -/
def charsBeginWith : List Char → List Char → Bool
  | _, [] => true
  | [], _ :: _ => false
  | c :: cs, p :: ps => c == p && charsBeginWith cs ps

/-- Substring search on character lists. -/
def charsHaveSub : List Char → List Char → Bool
  | [], pat => pat.isEmpty
  | c :: cs, pat => charsBeginWith (c :: cs) pat || charsHaveSub cs pat

/-- `s.includes(pat)` (JavaScript string containment). -/
def strIncludes (s pat : String) : Bool :=
  charsHaveSub s.toList pat.toList

/-- The `GameState` interface (page.tsx:13-43).  The two boolean flags that
page.tsx clears through a one-shot `setTimeout` — `isAttacking` (reset after
300 ms, page.tsx:726-728) and `invulnerable` (reset after 1000 ms,
page.tsx:741-743) — are accompanied here by the expiry timestamps
`attackAnimEnd` and `invulnEnd` of the pending timeout. -/
structure GameState where
  level : ℤ
  experience : ℤ
  health : ℤ
  maxHealth : ℤ
  mana : ℤ
  maxMana : ℤ
  inventory : Inventory
  equipment : Equipment
  unlockedSections : List String
  isInBattle : Bool
  dragonHealth : ℤ
  maxDragonHealth : ℤ
  playerPosition : Vec3
  dragonPosition : Vec3
  isAttacking : Bool
  isDodging : Bool
  lastAttackTime : ℚ
  invulnerable : Bool
  attackAnimEnd : ℚ
  invulnEnd : ℚ
deriving DecidableEq, Repr

/-- The initial `useState<GameState>` value (page.tsx:666-696).  The timer
expiry fields are 0: no timeout is pending at session start. -/
def initialGameState : GameState where
  level := 1
  experience := 0
  health := 100
  maxHealth := 100
  mana := 50
  maxMana := 50
  inventory := { diamonds := 0, emeralds := 0, gold := 0, iron := 0, redstone := 0, wood := 0 }
  equipment := { weapon := "Wooden Sword", armor := "Leather Armor", shield := "" }
  unlockedSections := []
  isInBattle := false
  dragonHealth := 1000
  maxDragonHealth := 1000
  playerPosition := ⟨0, 0, 0⟩
  dragonPosition := ⟨0, 15, -10⟩
  isAttacking := false
  isDodging := false
  lastAttackTime := 0
  invulnerable := false
  attackAnimEnd := 0
  invulnEnd := 0

/-- A `DragonAttack` (page.tsx:45-53). -/
structure Attack where
  id : String
  type : AttackType
  position : Vec3
  target : Vec3
  startTime : ℚ
  duration : ℚ
  damage : ℤ
deriving DecidableEq, Repr

/-- `handlePlayerHit` (page.tsx:731-744): a hit while invulnerable is fully
ignored; otherwise health is deducted (clamped at 0), the player becomes
invulnerable and the 1000 ms reset timeout is armed (`invulnEnd`). -/
def handlePlayerHit (st : GameState) (damage : ℤ) (now : ℚ) : GameState :=
  if st.invulnerable then st
  else
    { st with
      health := max 0 (st.health - damage)
      invulnerable := true
      invulnEnd := now + 1000 }

/-- The body of the 1000 ms `setTimeout` armed by `handlePlayerHit`
(page.tsx:741-743): clears the invulnerability flag. -/
def invulnTimerFire (st : GameState) : GameState :=
  { st with invulnerable := false }

/-- One hit event delivered at time `e.1` with damage `e.2`: the pending
invulnerability timeout fires first when due, then `handlePlayerHit` runs. -/
def hitStep (st : GameState) (e : ℚ × ℤ) : GameState :=
  let st' := if st.invulnerable && decide (st.invulnEnd ≤ e.1) then invulnTimerFire st else st
  handlePlayerHit st' e.2 e.1

/-- Deliver a time-ordered sequence of hit events. -/
def runHits (st : GameState) (es : List (ℚ × ℤ)) : GameState :=
  es.foldl hitStep st

/-- `handlePlayerAttack` (page.tsx:704-729): rejected outright (no state
change) when less than 500 ms elapsed since `lastAttackTime`; on acceptance
`isAttacking` is set with its 300 ms reset timeout (`attackAnimEnd`),
`lastAttackTime` is updated, and if the planar distance to the dragon is
under 8 the dragon loses `level*10 + (weapon == "Diamond Sword" ? 50 : 20)`
health, clamped at 0. -/
def handlePlayerAttack (st : GameState) (now : ℚ) : GameState :=
  if now - st.lastAttackTime < 500 then st
  else
    let st1 := { st with isAttacking := true, lastAttackTime := now, attackAnimEnd := now + 300 }
    if planarDistLt st.playerPosition st.dragonPosition 8 then
      let damage := st.level * 10 + (if st.equipment.weapon = "Diamond Sword" then 50 else 20)
      { st1 with dragonHealth := max 0 (st1.dragonHealth - damage) }
    else st1

/-- The body of the duration `setTimeout` armed by `handleDragonAttack`
(page.tsx:750-764): the attack is removed from the active list and, when its
kind is `aoe`, the player position is compared with the attack's fixed target
against the hardcoded threshold 3; within it, `handlePlayerHit` applies the
attack's damage. -/
def dragonAttackExpiry (attacks : List Attack) (a : Attack) (st : GameState)
    (now : ℚ) : List Attack × GameState :=
  let remaining := attacks.filter fun b => decide (b.id ≠ a.id)
  if a.type = AttackType.aoe then
    if planarDistLt st.playerPosition a.target 3 then
      (remaining, handlePlayerHit st a.damage now)
    else (remaining, st)
  else (remaining, st)

/-- The interpolation progress of a fireball at clock time `t` seconds
(`Fireball`'s `useFrame`, page.tsx:62-63): `elapsed / (duration/1000)`
clamped to at most 1, where `elapsed = (t*1000 - startTime)/1000`. -/
def fireballProgress (a : Attack) (t : ℚ) : ℚ :=
  min ((t * 1000 - a.startTime) / 1000 / (a.duration / 1000)) 1

/-- The fireball's interpolated position at clock time `t` (page.tsx:66-71):
linear interpolation from `position` to `target` by the progress. -/
def fireballPos (a : Attack) (t : ℚ) : Vec3 :=
  let p := fireballProgress a t
  ⟨a.position.x + (a.target.x - a.position.x) * p,
   a.position.y + (a.target.y - a.position.y) * p,
   a.position.z + (a.target.z - a.position.z) * p⟩

/-- The fireball resolution condition (page.tsx:74-78): planar distance of
the interpolated position to the target under 1.5 AND progress over 0.8. -/
def fireballHitCond (a : Attack) (t : ℚ) : Bool :=
  planarDistLt (fireballPos a t) a.target 1.5 && decide (fireballProgress a t > 0.8)

/-- One frame of the `Fireball` component at clock time `t` with the `hasHit`
flag: when not yet hit and the condition holds, `hasHit` is set and
`onHit(attack.damage)` is emitted (page.tsx:78-81). -/
def fireballFrame (a : Attack) (hasHit : Bool) (t : ℚ) : Bool × Option ℤ :=
  if hasHit then (hasHit, none)
  else if fireballHitCond a t then (true, some a.damage) else (false, none)

/-- Run the `Fireball` component over a sequence of frame clock times,
collecting the damage amounts passed to `onHit`. -/
def runFireball (a : Attack) (hasHit : Bool) : List ℚ → Bool × List ℤ
  | [] => (hasHit, [])
  | t :: ts =>
    let step := fireballFrame a hasHit t
    let rest := runFireball a step.1 ts
    (rest.1, step.2.toList ++ rest.2)

/-- The local state of the `DragonBoss` component (page.tsx:420-421):
`attackCooldown` in seconds and the attack-pattern cursor. -/
structure DragonBossState where
  attackCooldown : ℚ
  currentAttackPattern : ℕ
deriving DecidableEq, Repr

/-- The fixed pattern cycle (page.tsx:439). -/
def patterns : List AttackType :=
  [AttackType.fireball, AttackType.breath, AttackType.aoe, AttackType.charge]

/-- `patterns[cursor % patterns.length]` (page.tsx:440). -/
def patternAt (n : ℕ) : AttackType :=
  patterns.get ⟨n % patterns.length, Nat.mod_lt _ (by decide)⟩

/-- One frame of the `DragonBoss` attack scheduler (page.tsx:436-455).
`attackCooldown` is the value rendered into this frame's closure: the firing
check `attackCooldown <= 0` reads it before this frame's decrement applies,
and on firing the cooldown is overwritten with `2 + random*2`.  `rDamage` and
`rCooldown` stand for the two `Math.random()` draws in `[0,1)`; `idStr` for
the `Date.now()`-derived id; `now` for `clock.elapsedTime * 1000`. -/
def dragonStep (ds : DragonBossState) (delta : ℚ) (dragonPos playerPos : Vec3)
    (now : ℚ) (idStr : String) (rDamage rCooldown : ℚ) :
    DragonBossState × Option Attack :=
  if ds.attackCooldown ≤ 0 then
    let attackType := patternAt ds.currentAttackPattern
    let newAttack : Attack :=
      { id := idStr
        type := attackType
        position := dragonPos
        target := playerPos
        startTime := now
        duration :=
          if attackType = AttackType.fireball then 2000
          else if attackType = AttackType.aoe then 3000
          else 1500
        damage := 20 + ⌊rDamage * 10⌋ }
    ({ attackCooldown := 2 + rCooldown * 2
       currentAttackPattern := ds.currentAttackPattern + 1 }, some newAttack)
  else
    ({ ds with attackCooldown := max 0 (ds.attackCooldown - delta) }, none)

/-- Per-frame player damage produced by the rendered representation of an
active attack (`Scene`, page.tsx:625-632): only `fireball` attacks are
rendered with the `onHit` callback; an `aoe` attack renders a damage-free
`AOEIndicator`; `breath` and `charge` render nothing. -/
def attackFrameDamage (a : Attack) (hasHit : Bool) (t : ℚ) : Option ℤ :=
  match a.type with
  | AttackType.fireball => (fireballFrame a hasHit t).2
  | _ => none

/-- `gainExperience` (page.tsx:791-812): experience accumulates, the level is
recomputed as `Math.floor(newExp / 1000) + 1`, and on a level-up the maxima
grow by 20 / 10 with health and mana set to the new maxima. -/
def gainExperience (st : GameState) (amount : ℤ) : GameState :=
  let newExp := st.experience + amount
  let newLevel := Int.fdiv newExp 1000 + 1
  let leveledUp := newLevel > st.level
  { st with
    experience := newExp
    level := newLevel
    maxHealth := if leveledUp then st.maxHealth + 20 else st.maxHealth
    health := if leveledUp then st.maxHealth + 20 else st.health
    maxMana := if leveledUp then st.maxMana + 10 else st.maxMana
    mana := if leveledUp then st.maxMana + 10 else st.mana }

/-- `unlockSection` (page.tsx:828-833): appends the section name to
`unlockedSections` — with no membership check of its own. -/
def unlockSection (st : GameState) (sec : String) : GameState :=
  { st with unlockedSections := st.unlockedSections ++ [sec] }

/-- A section unlock as reachable through the page: every unlock `Button` is
`disabled` once its section is in `unlockedSections`
(page.tsx:1107,1145,1201,1244), so the click handler only runs when the
section is not yet present. -/
def guardedUnlockSection (st : GameState) (sec : String) : GameState :=
  if sec ∈ st.unlockedSections then st else unlockSection st sec

/-- `readyForBattle` (page.tsx:872). -/
def readyForBattle (st : GameState) : Bool :=
  decide (st.unlockedSections.length ≥ 4) && decide (st.level ≥ 5)

/-- The affordability check of `craftEquipment` (page.tsx:836-838):
every listed cost is covered by the current inventory. -/
def canCraft (inv : Inventory) (cost : List (Resource × ℤ)) : Bool :=
  cost.all fun rc => decide (inv.get rc.1 ≥ rc.2)

/-- The inventory update of `craftEquipment` on success (page.tsx:843-849):
each listed key is set to its pre-craft value minus its cost. -/
def deductCost (inv : Inventory) (cost : List (Resource × ℤ)) : Inventory :=
  cost.foldl (fun acc rc => acc.set rc.1 (inv.get rc.1 - rc.2)) inv

/-- `craftEquipment` (page.tsx:835-860): when affordable, costs are deducted,
each equipment slot whose keyword occurs in the item name is replaced, and
100 experience is gained; otherwise nothing happens. -/
def craftEquipment (st : GameState) (item : String) (cost : List (Resource × ℤ)) :
    GameState :=
  if canCraft st.inventory cost then
    let st' :=
      { st with
        inventory := deductCost st.inventory cost
        equipment :=
          { weapon := if strIncludes item "Sword" then item else st.equipment.weapon
            armor := if strIncludes item "Armor" then item else st.equipment.armor
            shield := if strIncludes item "Shield" then item else st.equipment.shield } }
    gainExperience st' 100
  else st

/-- A sample `aoe` attack as synthesized by the scheduler (damage roll 25). -/
def aoeSampleAttack : Attack where
  id := "attack_1"
  type := AttackType.aoe
  position := ⟨0, 15, -10⟩
  target := ⟨0, 0, 0⟩
  startTime := 0
  duration := 3000
  damage := 25

/-- A sample `breath` attack as synthesized by the scheduler. -/
def breathSampleAttack : Attack where
  id := "attack_2"
  type := AttackType.breath
  position := ⟨0, 15, -10⟩
  target := ⟨0, 0, 0⟩
  startTime := 0
  duration := 1500
  damage := 25

/-- The crafting example's starting state: inventory `{iron: 5, wood: 2}`. -/
def craftStart : GameState :=
  { initialGameState with
    inventory := { diamonds := 0, emeralds := 0, gold := 0, iron := 5, redstone := 0, wood := 2 } }

/-- The cost of "Iron Sword" (page.tsx:1296): `{ iron: 5, wood: 2 }`. -/
def ironSwordCost : List (Resource × ℤ) :=
  [(Resource.iron, 5), (Resource.wood, 2)]

/-- C1: For every damage application — to the player via `handlePlayerHit` and
to the dragon via `handlePlayerAttack` — the resulting health and dragonHealth
lie in `[0, max]`: never negative, never above `maxHealth` /
`maxDragonHealth`, for every nonnegative damage amount and every state
satisfying the health invariants (as all reachable states do; every damage
amount the code produces is nonnegative and the level is at least 1). -/
theorem damage_clamped_in_bounds (st : GameState) (damage : ℤ) (now : ℚ)
    (hh0 : 0 ≤ st.health) (hh1 : st.health ≤ st.maxHealth)
    (hd0 : 0 ≤ st.dragonHealth) (hd1 : st.dragonHealth ≤ st.maxDragonHealth)
    (hdmg : 0 ≤ damage) (hlvl : 0 ≤ st.level) :
    (0 ≤ (handlePlayerHit st damage now).health
      ∧ (handlePlayerHit st damage now).health ≤ (handlePlayerHit st damage now).maxHealth)
    ∧ (0 ≤ (handlePlayerAttack st now).dragonHealth
      ∧ (handlePlayerAttack st now).dragonHealth ≤ (handlePlayerAttack st now).maxDragonHealth) := by
  constructor
  · rw [handlePlayerHit]
    split
    · exact ⟨hh0, hh1⟩
    · show 0 ≤ max 0 (st.health - damage) ∧ max 0 (st.health - damage) ≤ st.maxHealth
      refine ⟨le_max_left _ _, max_le (le_trans hh0 hh1) (by omega)⟩
  · rw [handlePlayerAttack]
    split
    · exact ⟨hd0, hd1⟩
    · split
      · show 0 ≤ max 0 (st.dragonHealth
              - (st.level * 10 + if st.equipment.weapon = "Diamond Sword" then 50 else 20))
            ∧ max 0 (st.dragonHealth
              - (st.level * 10 + if st.equipment.weapon = "Diamond Sword" then 50 else 20))
              ≤ st.maxDragonHealth
        refine ⟨le_max_left _ _, max_le (le_trans hd0 hd1) ?_⟩
        have hb : (0:ℤ) ≤ (if st.equipment.weapon = "Diamond Sword" then 50 else 20) := by
          split <;> omega
        omega
      · exact ⟨hd0, hd1⟩

/-- C1 witness: applied at the initial state with damage 25. -/
theorem damage_clamped_in_bounds_witness :
    0 ≤ (handlePlayerHit initialGameState 25 0).health
      ∧ (handlePlayerHit initialGameState 25 0).health
          ≤ (handlePlayerHit initialGameState 25 0).maxHealth :=
  (damage_clamped_in_bounds initialGameState 25 0 (by decide) (by decide) (by decide)
    (by decide) (by decide) (by decide)).1

/-- C3: A player attack command is accepted only when at least 500 ms elapsed
since the previous accepted attack and is otherwise a no-op; on acceptance,
`isAttacking` is set with its 300 ms reset timeout and, if the planar distance
to the dragon is under 8, `dragonHealth` drops immediately by
`level*10 + (weapon == "Diamond Sword" ? 50 : 20)`; two attack commands less
than 500 ms apart leave the state of the second exactly as after the first
(exactly one damage application). -/
theorem attack_cooldown_spec (st : GameState) (now : ℚ) :
    (now - st.lastAttackTime < 500 → handlePlayerAttack st now = st)
    ∧ (¬ now - st.lastAttackTime < 500 →
        (handlePlayerAttack st now).isAttacking = true
        ∧ (handlePlayerAttack st now).attackAnimEnd = now + 300
        ∧ (handlePlayerAttack st now).lastAttackTime = now
        ∧ (planarDistLt st.playerPosition st.dragonPosition 8 = true →
            (handlePlayerAttack st now).dragonHealth
              = max 0 (st.dragonHealth
                  - (st.level * 10 + if st.equipment.weapon = "Diamond Sword" then 50 else 20)))
        ∧ (planarDistLt st.playerPosition st.dragonPosition 8 = false →
            (handlePlayerAttack st now).dragonHealth = st.dragonHealth))
    ∧ ∀ now₂, ¬ now - st.lastAttackTime < 500 → now₂ - now < 500 →
        handlePlayerAttack (handlePlayerAttack st now) now₂ = handlePlayerAttack st now := by
  refine ⟨fun h => ?_, fun h => ?_, fun now₂ h h₂ => ?_⟩
  · rw [handlePlayerAttack, if_pos h]
  · by_cases hr : planarDistLt st.playerPosition st.dragonPosition 8 = true
    · have e : handlePlayerAttack st now
          = { st with
              isAttacking := true, lastAttackTime := now, attackAnimEnd := now + 300
              dragonHealth := max 0 (st.dragonHealth
                - (st.level * 10
                    + if st.equipment.weapon = "Diamond Sword" then 50 else 20)) } := by
        simp [handlePlayerAttack, h, hr]
      rw [e]
      exact ⟨rfl, rfl, rfl, fun _ => rfl,
        fun hf => by rw [hf] at hr; exact (Bool.false_ne_true hr).elim⟩
    · rw [Bool.not_eq_true] at hr
      have e : handlePlayerAttack st now
          = { st with isAttacking := true, lastAttackTime := now, attackAnimEnd := now + 300 } := by
        simp [handlePlayerAttack, h, hr]
      rw [e]
      exact ⟨rfl, rfl, rfl,
        fun hf => by rw [hf] at hr; exact (Bool.true_eq_false ▸ hr).elim,
        fun _ => rfl⟩
  · have hl : (handlePlayerAttack st now).lastAttackTime = now := by
      rw [handlePlayerAttack, if_neg h]
      split <;> rfl
    conv_lhs => rw [handlePlayerAttack]
    rw [if_pos (by rw [hl]; exact h₂)]

/-- C3 witness: the first command at t=1000 from the initial state is
accepted, the second at t=1200 (200 ms later) is a no-op. -/
theorem attack_cooldown_spec_witness :
    handlePlayerAttack (handlePlayerAttack initialGameState 1000) 1200
      = handlePlayerAttack initialGameState 1000 :=
  (attack_cooldown_spec initialGameState 1000).2.2 1200 (by norm_num [initialGameState])
    (by norm_num)

/-- While the player is invulnerable, every hit event delivered strictly
before the pending window expiry leaves the state entirely unchanged. -/
theorem runHits_invulnerable_noop (st : GameState) (hinv : st.invulnerable = true) :
    ∀ es : List (ℚ × ℤ), (∀ e ∈ es, e.1 < st.invulnEnd) → runHits st es = st := by
  intro es
  induction es with
  | nil => exact fun _ => rfl
  | cons e rest ih =>
    intro hes
    have hlt : e.1 < st.invulnEnd := hes e (List.mem_cons_self _ _)
    have h1 : hitStep st e = st := by
      simp [hitStep, handlePlayerHit, hinv, not_le.mpr hlt]
    have hr : runHits st (e :: rest) = runHits st rest := by
      simp only [runHits, List.foldl_cons, h1]
    rw [hr]
    exact ih fun e' he' => hes e' (List.mem_cons_of_mem _ he')

/-- C2: A hit arriving while the player is invulnerable is fully ignored; a
successful hit deducts health (clamped at 0) and makes the player
invulnerable, and the window ends exactly 1000 ms after that hit regardless
of further hits during it: every further hit delivered less than 1000 ms
after the first leaves the state (hence health) unchanged, while a hit at or
after the 1000 ms mark deducts health again. -/
theorem invulnerability_window_spec (st : GameState) (t₁ : ℚ) (d₁ : ℤ)
    (rest : List (ℚ × ℤ)) (h0 : st.invulnerable = false)
    (hrest : ∀ e ∈ rest, t₁ ≤ e.1 ∧ e.1 < t₁ + 1000) :
    runHits st ((t₁, d₁) :: rest) = handlePlayerHit st d₁ t₁
    ∧ (runHits st ((t₁, d₁) :: rest)).health = max 0 (st.health - d₁)
    ∧ (runHits st ((t₁, d₁) :: rest)).invulnerable = true
    ∧ (runHits st ((t₁, d₁) :: rest)).invulnEnd = t₁ + 1000
    ∧ (invulnTimerFire (runHits st ((t₁, d₁) :: rest))).invulnerable = false
    ∧ ∀ t₂ d₂, t₁ + 1000 ≤ t₂ →
        (runHits st (((t₁, d₁) :: rest) ++ [(t₂, d₂)])).health
          = max 0 (max 0 (st.health - d₁) - d₂) := by
  have hh : handlePlayerHit st d₁ t₁
      = { st with
          health := max 0 (st.health - d₁), invulnerable := true, invulnEnd := t₁ + 1000 } := by
    simp [handlePlayerHit, h0]
  have hst1 : hitStep st (t₁, d₁) = handlePlayerHit st d₁ t₁ := by
    simp [hitStep, h0]
  have key : runHits st ((t₁, d₁) :: rest) = handlePlayerHit st d₁ t₁ := by
    have hsplit : runHits st ((t₁, d₁) :: rest) = runHits (handlePlayerHit st d₁ t₁) rest := by
      simp only [runHits, List.foldl_cons, hst1]
    rw [hsplit, hh]
    exact runHits_invulnerable_noop _ rfl rest fun e he => (hrest e he).2
  refine ⟨key, by rw [key, hh], by rw [key, hh], by rw [key, hh], by rw [key, hh]; rfl,
    fun t₂ d₂ h₂ => ?_⟩
  have happ : runHits st (((t₁, d₁) :: rest) ++ [(t₂, d₂)])
      = hitStep (runHits st ((t₁, d₁) :: rest)) (t₂, d₂) := by
    simp only [runHits, List.foldl_append, List.foldl_cons, List.foldl_nil]
  rw [happ, key, hh]
  simp [hitStep, invulnTimerFire, handlePlayerHit, h₂]

/-- C2 witness: a hit of 30 at t=0 from the initial state, a second hit of 40
at t=500 (inside the window): health drops only by the first hit. -/
theorem invulnerability_window_spec_witness :
    (runHits initialGameState [((0 : ℚ), (30 : ℤ)), (500, 40)]).health
      = max 0 (initialGameState.health - 30) :=
  (invulnerability_window_spec initialGameState 0 30 [(500, 40)] rfl
    (by
      intro e he
      simp only [List.mem_singleton] at he
      subst he
      exact ⟨by norm_num, by norm_num⟩)).2.1

/-- C4: An `aoe` attack resolves exactly once, at expiry, against the player
position then current in the game state and the attack's fixed center: damage
is applied iff the planar distance is under the hardcoded 3 (the attack is
removed from the active list either way, so no second resolution can occur);
concretely, a player at distance 2.9 at expiry takes the sample attack's 25
damage (health 100 → 75), at distance 3.1 takes none (health stays 100). -/
theorem aoe_expiry_spec (attacks : List Attack) (a : Attack) (st : GameState) (now : ℚ)
    (htype : a.type = AttackType.aoe) (hinv : st.invulnerable = false) :
    ((planarDistLt st.playerPosition a.target 3 = true →
        (dragonAttackExpiry attacks a st now).2.health = max 0 (st.health - a.damage))
      ∧ (planarDistLt st.playerPosition a.target 3 = false →
        (dragonAttackExpiry attacks a st now).2 = st)
      ∧ ∀ b ∈ (dragonAttackExpiry attacks a st now).1, b.id ≠ a.id)
    ∧ (dragonAttackExpiry [] aoeSampleAttack
        { initialGameState with playerPosition := ⟨2.9, 0, 0⟩ } 3000).2.health = 75
    ∧ (dragonAttackExpiry [] aoeSampleAttack
        { initialGameState with playerPosition := ⟨3.1, 0, 0⟩ } 3000).2.health = 100 := by
  refine ⟨⟨fun hd => ?_, fun hd => ?_, fun b hb => ?_⟩, ?_, ?_⟩
  · rw [dragonAttackExpiry, if_pos htype, if_pos hd]
    simp [handlePlayerHit, hinv]
  · rw [dragonAttackExpiry, if_pos htype, if_neg (by rw [hd]; exact Bool.false_ne_true)]
  · have hmem : b ∈ attacks.filter fun c => decide (c.id ≠ a.id) := by
      rw [dragonAttackExpiry] at hb
      split at hb <;> first
        | exact hb
        | (split at hb <;> exact hb)
    exact of_decide_eq_true (List.mem_filter.mp hmem).2
  · rw [dragonAttackExpiry, if_pos (show aoeSampleAttack.type = AttackType.aoe from rfl),
      if_pos (by
        simp only [planarDistLt, planarDistSq, decide_eq_true_eq]
        norm_num [aoeSampleAttack, initialGameState])]
    simp [handlePlayerHit, aoeSampleAttack, initialGameState]
  · rw [dragonAttackExpiry, if_pos (show aoeSampleAttack.type = AttackType.aoe from rfl),
      if_neg (by
        simp only [planarDistLt, planarDistSq, decide_eq_true_eq, not_lt]
        norm_num [aoeSampleAttack, initialGameState])]
    rfl

/-- C4 witness: applied at the 2.9-distance sample state. -/
theorem aoe_expiry_spec_witness :
    (dragonAttackExpiry [] aoeSampleAttack
        { initialGameState with playerPosition := ⟨2.9, 0, 0⟩ } 3000).2.health = 75 :=
  (aoe_expiry_spec [] aoeSampleAttack
    { initialGameState with playerPosition := ⟨2.9, 0, 0⟩ } 3000 rfl rfl).2.1

/-- Once a fireball has hit, every further frame is inert: no more damage. -/
theorem runFireball_after_hit (a : Attack) (ts : List ℚ) :
    runFireball a true ts = (true, []) := by
  induction ts with
  | nil => rfl
  | cons t ts ih => simp [runFireball, fireballFrame, ih]

/-- C5: A fireball interpolates linearly from origin to target over its
duration; over any sequence of frames it applies its damage exactly once if
some frame satisfies the resolution condition (progress over 0.8 AND planar
distance of the interpolated position to the target under 1.5) — resolving at
the first such frame and staying resolved — and applies no damage at all if
no frame ever satisfies it. -/
theorem fireball_resolution_spec (a : Attack) (ts : List ℚ) :
    runFireball a false ts
      = (ts.any fun t => fireballHitCond a t,
         if ts.any (fun t => fireballHitCond a t) then [a.damage] else []) := by
  induction ts with
  | nil => rfl
  | cons t ts ih =>
    by_cases h : fireballHitCond a t = true
    · simp [runFireball, fireballFrame, h, runFireball_after_hit]
    · rw [Bool.not_eq_true] at h
      simp [runFireball, fireballFrame, h, ih]

/-- C6: Each frame the cooldown is decremented by the elapsed time (clamped
at 0) and no attack fires while it is positive; on the frame where it is at
zero exactly one attack is synthesized — kind `patterns[cursor % 4]`, target
a snapshot of the player position, origin the dragon position, kind-dependent
duration (fireball 2000, aoe 3000, breath/charge 1500), damage
`20 + floor(rand*10) ∈ [20, 29]` — the cursor advances by 1 and the cooldown
is redrawn as `2 + rand*2 ∈ [2, 4]`. -/
theorem dragon_scheduler_spec (ds : DragonBossState) (delta : ℚ)
    (dragonPos playerPos : Vec3) (now : ℚ) (idStr : String) (rDamage rCooldown : ℚ)
    (hr1 : 0 ≤ rDamage) (hr2 : rDamage < 1) (hr3 : 0 ≤ rCooldown) (hr4 : rCooldown < 1) :
    (0 < ds.attackCooldown →
      dragonStep ds delta dragonPos playerPos now idStr rDamage rCooldown
        = ({ ds with attackCooldown := max 0 (ds.attackCooldown - delta) }, none))
    ∧ (ds.attackCooldown ≤ 0 →
      ∃ a, dragonStep ds delta dragonPos playerPos now idStr rDamage rCooldown
          = ({ attackCooldown := 2 + rCooldown * 2,
               currentAttackPattern := ds.currentAttackPattern + 1 }, some a)
        ∧ a.type = patternAt ds.currentAttackPattern
        ∧ a.target = playerPos
        ∧ a.position = dragonPos
        ∧ a.startTime = now
        ∧ (a.type = AttackType.fireball → a.duration = 2000)
        ∧ (a.type = AttackType.aoe → a.duration = 3000)
        ∧ ((a.type = AttackType.breath ∨ a.type = AttackType.charge) → a.duration = 1500)
        ∧ 20 ≤ a.damage ∧ a.damage ≤ 29
        ∧ 2 ≤ 2 + rCooldown * 2 ∧ 2 + rCooldown * 2 ≤ 4) := by
  constructor
  · intro h
    rw [dragonStep, if_neg (not_le.mpr h)]
  · intro h
    rw [dragonStep, if_pos h]
    refine ⟨_, rfl, rfl, rfl, rfl, rfl, fun hf => ?_, fun hf => ?_,
      fun hf => ?_, ?_, ?_, by linarith, by linarith⟩
    · have hf' : patternAt ds.currentAttackPattern = AttackType.fireball := hf
      show (if patternAt ds.currentAttackPattern = AttackType.fireball then (2000:ℚ)
          else if patternAt ds.currentAttackPattern = AttackType.aoe then 3000 else 1500) = 2000
      rw [hf']
      simp
    · have hf' : patternAt ds.currentAttackPattern = AttackType.aoe := hf
      show (if patternAt ds.currentAttackPattern = AttackType.fireball then (2000:ℚ)
          else if patternAt ds.currentAttackPattern = AttackType.aoe then 3000 else 1500) = 3000
      rw [hf']
      simp
    · show (if patternAt ds.currentAttackPattern = AttackType.fireball then (2000:ℚ)
          else if patternAt ds.currentAttackPattern = AttackType.aoe then 3000 else 1500) = 1500
      rcases hf with hf | hf
      · have hf' : patternAt ds.currentAttackPattern = AttackType.breath := hf
        rw [hf']
        simp
      · have hf' : patternAt ds.currentAttackPattern = AttackType.charge := hf
        rw [hf']
        simp
    · show (20:ℤ) ≤ 20 + ⌊rDamage * 10⌋
      have : (0:ℤ) ≤ ⌊rDamage * 10⌋ :=
        Int.floor_nonneg.mpr (by positivity)
      omega
    · show (20:ℤ) + ⌊rDamage * 10⌋ ≤ 29
      have : ⌊rDamage * 10⌋ < 10 := by
        rw [Int.floor_lt]
        push_cast
        linarith
      omega

/-- C6 witness: with the cooldown still at 1 and delta 1/4, no attack fires
and the cooldown decrements. -/
theorem dragon_scheduler_spec_witness :
    dragonStep ⟨1, 0⟩ (1/4) ⟨0, 15, -10⟩ ⟨0, 0, 0⟩ 0 "attack_1" (1/2) (1/2)
      = ({ attackCooldown := max 0 ((1:ℚ) - 1/4), currentAttackPattern := 0 }, none) :=
  (dragon_scheduler_spec ⟨1, 0⟩ (1/4) ⟨0, 15, -10⟩ ⟨0, 0, 0⟩ 0 "attack_1" (1/2) (1/2)
    (by norm_num) (by norm_num) (by norm_num) (by norm_num)).1 (by norm_num)

/-- C10: A `breath` or `charge` attack never damages the player: its rendered
representation produces no per-frame damage on any frame, and at expiry the
game state is left unchanged while the attack is removed from the active
list. -/
theorem breath_charge_no_damage (a : Attack)
    (h : a.type = AttackType.breath ∨ a.type = AttackType.charge) :
    (∀ hasHit t, attackFrameDamage a hasHit t = none)
    ∧ ∀ attacks st now,
        (dragonAttackExpiry attacks a st now).2 = st
        ∧ ∀ b ∈ (dragonAttackExpiry attacks a st now).1, b.id ≠ a.id := by
  have hne : a.type ≠ AttackType.aoe := by
    rcases h with h | h <;> rw [h] <;> intro hc <;> cases hc
  constructor
  · intro hasHit t
    rcases h with h | h <;> rw [attackFrameDamage, h]
  · intro attacks st now
    rw [dragonAttackExpiry, if_neg hne]
    exact ⟨rfl, fun b hb => of_decide_eq_true (List.mem_filter.mp hb).2⟩

/-- C10 witness: applied at the sample breath attack. -/
theorem breath_charge_no_damage_witness :
    attackFrameDamage breathSampleAttack false 0 = none :=
  (breath_charge_no_damage breathSampleAttack (Or.inl rfl)).1 false 0

/-- C8: After any experience gain the level equals
`floor(experience/1000) + 1` (0 → 1, 999 → 1, 1000 → 2, 2500 → 3); a gain
that raises the level adds the fixed +20 max health and +10 max mana and tops
health and mana up to the new maxima; a gain that does not raises nothing:
health, mana and both maxima are unchanged. -/
theorem experience_level_spec (st : GameState) (amount : ℤ) :
    (gainExperience st amount).level
        = Int.fdiv (gainExperience st amount).experience 1000 + 1
    ∧ (gainExperience st amount).experience = st.experience + amount
    ∧ (Int.fdiv (st.experience + amount) 1000 + 1 > st.level →
        (gainExperience st amount).maxHealth = st.maxHealth + 20
        ∧ (gainExperience st amount).health = (gainExperience st amount).maxHealth
        ∧ (gainExperience st amount).maxMana = st.maxMana + 10
        ∧ (gainExperience st amount).mana = (gainExperience st amount).maxMana)
    ∧ (¬ Int.fdiv (st.experience + amount) 1000 + 1 > st.level →
        (gainExperience st amount).maxHealth = st.maxHealth
        ∧ (gainExperience st amount).health = st.health
        ∧ (gainExperience st amount).maxMana = st.maxMana
        ∧ (gainExperience st amount).mana = st.mana)
    ∧ (gainExperience initialGameState 0).level = 1
    ∧ (gainExperience initialGameState 999).level = 1
    ∧ (gainExperience initialGameState 1000).level = 2
    ∧ (gainExperience initialGameState 2500).level = 3 := by
  refine ⟨?_, rfl, fun hup => ?_, fun hup => ?_, by decide, by decide, by decide, by decide⟩
  · rw [gainExperience]
  · rw [gainExperience]
    simp [if_pos hup]
  · rw [gainExperience]
    simp [if_neg hup]

/-- C8 witness: gaining 1000 experience from the initial state levels up and
raises max health by the fixed 20. -/
theorem experience_level_spec_witness :
    (gainExperience initialGameState 1000).maxHealth = initialGameState.maxHealth + 20 :=
  ((experience_level_spec initialGameState 1000).2.2.1 (by decide)).1

/-- C7: Crafting succeeds iff every listed resource cost is simultaneously
affordable; on success the costs are deducted and exactly the slots whose
keyword (`Sword` → weapon, `Armor` → armor, `Shield` → shield) occurs in the
item name are replaced; on failure the state is left entirely unchanged.
Concretely, from inventory {iron: 5, wood: 2} crafting "Iron Sword" (cost
iron: 5, wood: 2) succeeds, zeroes both resources and replaces only the
weapon slot, and a repeat attempt with the zeroed inventory is a no-op. -/
theorem crafting_spec (st : GameState) (item : String) (cost : List (Resource × ℤ)) :
    (canCraft st.inventory cost = true ↔ ∀ rc ∈ cost, rc.2 ≤ st.inventory.get rc.1)
    ∧ (canCraft st.inventory cost = false → craftEquipment st item cost = st)
    ∧ (canCraft st.inventory cost = true →
        (craftEquipment st item cost).inventory = deductCost st.inventory cost
        ∧ (craftEquipment st item cost).equipment.weapon
            = (if strIncludes item "Sword" then item else st.equipment.weapon)
        ∧ (craftEquipment st item cost).equipment.armor
            = (if strIncludes item "Armor" then item else st.equipment.armor)
        ∧ (craftEquipment st item cost).equipment.shield
            = (if strIncludes item "Shield" then item else st.equipment.shield))
    ∧ (craftEquipment craftStart "Iron Sword" ironSwordCost).inventory.iron = 0
    ∧ (craftEquipment craftStart "Iron Sword" ironSwordCost).inventory.wood = 0
    ∧ (craftEquipment craftStart "Iron Sword" ironSwordCost).equipment.weapon = "Iron Sword"
    ∧ (craftEquipment craftStart "Iron Sword" ironSwordCost).equipment.armor = "Leather Armor"
    ∧ (craftEquipment craftStart "Iron Sword" ironSwordCost).equipment.shield = ""
    ∧ craftEquipment (craftEquipment craftStart "Iron Sword" ironSwordCost)
          "Iron Sword" ironSwordCost
        = craftEquipment craftStart "Iron Sword" ironSwordCost := by
  refine ⟨?_, fun hc => ?_, fun hc => ?_, by decide, by decide, by decide, by decide, by decide,
    by decide⟩
  · simp [canCraft, List.all_eq_true, ge_iff_le]
  · rw [craftEquipment, if_neg (by rw [hc]; exact Bool.false_ne_true)]
  · rw [craftEquipment, if_pos hc]
    exact ⟨rfl, rfl, rfl, rfl⟩

/-- C7 witness: the concrete successful craft deducts exactly the listed
costs. -/
theorem crafting_spec_witness :
    (craftEquipment craftStart "Iron Sword" ironSwordCost).inventory
      = deductCost craftStart.inventory ironSwordCost :=
  ((crafting_spec craftStart "Iron Sword" ironSwordCost).2.2.1 (by decide)).1

/-- C9 counterexample: `unlockSection` itself performs no deduplication —
calling it twice with "about" from the initial state yields the list
["about", "about"], which contains the section name twice, refuting "for
every sequence of unlockSection calls the collection contains each section
name at most once". -/
theorem unlock_dedup_counterexample :
    (unlockSection (unlockSection initialGameState "about") "about").unlockedSections
        = ["about", "about"]
    ∧ ¬ (unlockSection (unlockSection initialGameState "about") "about").unlockedSections.count
          "about" ≤ 1 := by
  constructor
  · rfl
  · decide

/-- Through `guardedUnlockSection`, a duplicate-free collection stays
duplicate-free and loses no element. -/
theorem guardedUnlock_foldl_nodup (secs : List String) :
    ∀ st : GameState, st.unlockedSections.Nodup →
      (secs.foldl guardedUnlockSection st).unlockedSections.Nodup
      ∧ ∀ t ∈ st.unlockedSections, t ∈ (secs.foldl guardedUnlockSection st).unlockedSections := by
  induction secs with
  | nil => exact fun st hnd => ⟨hnd, fun t ht => ht⟩
  | cons s ss ih =>
    intro st hnd
    by_cases hs : s ∈ st.unlockedSections
    · have hstep : guardedUnlockSection st s = st := by
        rw [guardedUnlockSection, if_pos hs]
      rw [List.foldl_cons, hstep]
      exact ih st hnd
    · have hstep : (guardedUnlockSection st s).unlockedSections
          = st.unlockedSections ++ [s] := by
        rw [guardedUnlockSection, if_neg hs]
        rfl
      have hnd' : (guardedUnlockSection st s).unlockedSections.Nodup := by
        rw [hstep]
        simp [List.nodup_append, hnd, hs]
      rw [List.foldl_cons]
      refine ⟨(ih _ hnd').1, fun t ht => (ih _ hnd').2 t ?_⟩
      rw [hstep]
      exact List.mem_append_left _ ht

/-- C9 amended: the collection is append-only — `unlockSection` appends the
given name at the end, removing nothing — but `unlockSection` itself does not
deduplicate; deduplication holds only for call sequences in which a section
is never unlocked while already present, which is what the page enforces by
disabling each unlock button once its section is unlocked
(`guardedUnlockSection`): under that guard, starting from a duplicate-free
collection, the collection stays duplicate-free (each name at most once) and
previously present names are never removed. -/
theorem unlock_append_only_spec (st : GameState) (sec : String) (secs : List String)
    (hnd : st.unlockedSections.Nodup) :
    (unlockSection st sec).unlockedSections = st.unlockedSections ++ [sec]
    ∧ (secs.foldl guardedUnlockSection st).unlockedSections.Nodup
    ∧ ∀ t ∈ st.unlockedSections, t ∈ (secs.foldl guardedUnlockSection st).unlockedSections :=
  ⟨rfl, (guardedUnlock_foldl_nodup secs st hnd).1, (guardedUnlock_foldl_nodup secs st hnd).2⟩

/-- C9 witness: two guarded "about" unlocks from the initial state leave the
collection duplicate-free. -/
theorem unlock_append_only_spec_witness :
    (["about", "about"].foldl guardedUnlockSection initialGameState).unlockedSections.Nodup :=
  (unlock_append_only_spec initialGameState "about" ["about", "about"] List.nodup_nil).2.1

end Portfolio3D
